import Mathlib

/-!
Verification of the Tambola game-progression and prize-validation engine.

The definitions below are shallow embeddings of the TypeScript service layer
(`supabase-game.ts`, `firebase-core.ts`, the host components and providers).
Pure record manipulation is translated to Lean functions over explicit state
records; the database row for a game is passed as an `Option` value; fallible
operations return `Except`.  Where the repository delegates a step to a
server-side RPC whose body is not part of the sources (`call_next_number`,
`validate_win`, and the firebase prize helpers), a definition modelled from
the specification text replaces it, and is marked as such in its doc comment.
-/

namespace Tambola

/-- Embeds the `GameState` record of `supabase-types.ts` (also the firebase
`GameState` plus the `totalNumbersCalled` counter). -/
structure GameState where
  isActive : Bool
  isCountdown : Bool
  countdownTime : Nat
  gameOver : Bool
  calledNumbers : List Nat
  currentNumber : Option Nat
  totalNumbersCalled : Nat
deriving Repr, DecidableEq

/-- Embeds the `status` column of the `games` table
(`'setup' | 'countdown' | 'active' | 'paused' | 'finished'`). -/
inductive GameStatus where
  | setup
  | countdown
  | active
  | paused
  | finished
deriving Repr, DecidableEq

/-- Embeds the `games` row of `supabase-types.ts`: the mutable game columns
relevant to the service layer (`status`, `game_state`, `session_numbers`,
plus configuration columns). -/
structure GameData where
  name : String
  max_tickets : Nat
  ticket_price : Nat
  status : GameStatus
  game_state : GameState
  session_numbers : List Nat
deriving Repr, DecidableEq

/-! ## C9: `markTicketNumber` (supabase-game.ts lines 521-555) -/

/-- Embeds `markTicketNumber`: the service fetches the ticket's
`marked_numbers`, and only if the number is not already contained does it
append it and issue an update.  The result is the stored list after the call
together with whether a write was issued. -/
def markTicketNumber (marked : List Nat) (number : Nat) : List Nat × Bool :=
  if number ∈ marked then (marked, false)
  else (marked ++ [number], true)

/-! ## C10: `updateGameState` (supabase-game.ts lines 148-178) -/

/-- Embeds `Partial<GameState>`: each field is either supplied or absent. -/
structure GameStatePatch where
  isActive : Option Bool
  isCountdown : Option Bool
  countdownTime : Option Nat
  gameOver : Option Bool
  calledNumbers : Option (List Nat)
  currentNumber : Option (Option Nat)
  totalNumbersCalled : Option Nat
deriving Repr, DecidableEq

/-- The empty patch: no field supplied. -/
def GameStatePatch.empty : GameStatePatch :=
  ⟨none, none, none, none, none, none, none⟩

/-- Embeds the object spread `{ ...currentGame.game_state, ...gameState }`:
a supplied field overrides, an absent field keeps the stored value. -/
def mergeGameState (old : GameState) (p : GameStatePatch) : GameState where
  isActive := p.isActive.getD old.isActive
  isCountdown := p.isCountdown.getD old.isCountdown
  countdownTime := p.countdownTime.getD old.countdownTime
  gameOver := p.gameOver.getD old.gameOver
  calledNumbers := p.calledNumbers.getD old.calledNumbers
  currentNumber := p.currentNumber.getD old.currentNumber
  totalNumbersCalled := p.totalNumbersCalled.getD old.totalNumbersCalled

/-- The error thrown by `updateGameState` when the row is missing
(`Game not found`). -/
inductive UpdateError where
  | gameNotFound
deriving Repr, DecidableEq

/-- Embeds `updateGameState(gameId, gameState)`: read the current row
(`none` when the game does not exist), fail with `Game not found` in that
case, otherwise write back the row with the merged `game_state` and all
other columns untouched. -/
def updateGameState (stored : Option GameData) (p : GameStatePatch) :
    Except UpdateError GameData :=
  match stored with
  | none => .error .gameNotFound
  | some g => .ok { g with game_state := mergeGameState g.game_state p }

/-- The stored row after `updateGameState` returns: on success the written
row replaces the old one, on error nothing is written. -/
def applyGameStateUpdate (stored : Option GameData) (p : GameStatePatch) :
    Option GameData :=
  match updateGameState stored p with
  | .ok g => some g
  | .error _ => stored

/-! ## C8: `safeTransactionUpdate` (firebase-core.ts lines 203-233) -/

/-- Observable outcome of the retry loop of `safeTransactionUpdate`:
whether the call returned normally, the index of the last attempt that ran,
and the list of backoff delays (in milliseconds) waited between attempts. -/
structure TxOutcome where
  ok : Bool
  lastAttempt : Nat
  delays : List Nat
deriving Repr, DecidableEq

/-- Embeds the body of the `for (let attempt = 1; attempt <= retries; ...)`
loop of `safeTransactionUpdate`.  `succeeds k` tells whether the transaction
at attempt number `k` commits; `remaining` counts the attempts still
allowed.  On failure of the final attempt the error is surfaced with no
further delay; on an earlier failure the loop waits `2 ^ attempt * 100`
milliseconds and retries. -/
def txAttempts (succeeds : Nat → Bool) (attempt : Nat) : Nat → TxOutcome
  | 0 => ⟨true, attempt - 1, []⟩
  | remaining + 1 =>
    if succeeds attempt then ⟨true, attempt, []⟩
    else if remaining = 0 then ⟨false, attempt, []⟩
    else
      let r := txAttempts succeeds (attempt + 1) remaining
      ⟨r.ok, r.lastAttempt, (2 ^ attempt * 100) :: r.delays⟩

/-- Embeds `safeTransactionUpdate(path, updates, retries)`; the source
default for `retries` is `3`. -/
def safeTransactionUpdate (succeeds : Nat → Bool) (retries : Nat) : TxOutcome :=
  txAttempts succeeds 1 retries

/-! ## C4: `generateNumberSequence` and `startGameWithCountdown`
(supabase-game.ts lines 185-228 and 453-463) -/

/-- Exchange the entries of `l` at positions `i` and `j`, as the statement
`[numbers[i], numbers[j]] = [numbers[j], numbers[i]]` does; out-of-range
positions leave the list unchanged (they never occur in the shuffle loop). -/
def listSwap (l : List Nat) (i j : Nat) : List Nat :=
  match l[i]?, l[j]? with
  | some a, some b => (l.set i b).set j a
  | _, _ => l

/-- Embeds the `for (let i = numbers.length - 1; i > 0; i--)` loop of the
Fisher–Yates shuffle in `generateNumberSequence`: `js i` stands for the
value `Math.floor(Math.random() * (i + 1))` drawn at index `i`. -/
def fisherYates (js : Nat → Nat) : Nat → List Nat → List Nat
  | 0, l => l
  | i + 1, l => fisherYates js i (listSwap l (i + 1) (js (i + 1)))

/-- Embeds `generateNumberSequence`: start from `[1..90]` and shuffle. -/
def generateNumberSequence (js : Nat → Nat) : List Nat :=
  fisherYates js 89 (List.range' 1 90)

/-- Embeds `startGameWithCountdown`: generate the session numbers, reset the
game state with a 10-second countdown, set the status to `countdown`, and
store the sequence on the game row. -/
def startGameWithCountdown (js : Nat → Nat) (g : GameData) : GameData :=
  { g with
    status := .countdown
    game_state :=
      { isActive := false, isCountdown := true, countdownTime := 10,
        gameOver := false, calledNumbers := [], currentNumber := none,
        totalNumbersCalled := 0 }
    session_numbers := generateNumberSequence js }

theorem cons_set_perm (xs : List Nat) (m x b : Nat) (hm : xs[m]? = some b) :
    (b :: xs.set m x).Perm (x :: xs) := by
  induction xs generalizing m with
  | nil => simp at hm
  | cons y ys ih =>
    cases m with
    | zero =>
      have hb : b = y := by simpa using hm.symm
      subst hb
      exact List.Perm.swap x b ys
    | succ k =>
      simp at hm
      have hset : (y :: ys).set (k + 1) x = y :: ys.set k x := rfl
      rw [hset]
      have p1 : (b :: y :: ys.set k x).Perm (y :: b :: ys.set k x) :=
        List.Perm.swap y b (ys.set k x)
      have p3 : (y :: b :: ys.set k x).Perm (y :: x :: ys) :=
        (ih k hm).cons y
      have p4 : (y :: x :: ys).Perm (x :: y :: ys) := List.Perm.swap x y ys
      exact (p1.trans p3).trans p4

theorem listSwap_perm (l : List Nat) (i j : Nat) : (listSwap l i j).Perm l := by
  induction l generalizing i j with
  | nil => simp [listSwap]
  | cons x xs ih =>
    cases i with
    | zero =>
      cases j with
      | zero => simp [listSwap]
      | succ m =>
        cases hm : xs[m]? with
        | none => simp [listSwap, hm]
        | some b =>
          have : listSwap (x :: xs) 0 (m + 1) = b :: xs.set m x := by
            simp [listSwap, hm]
          rw [this]
          exact cons_set_perm xs m x b hm
    | succ n =>
      cases j with
      | zero =>
        cases hn : xs[n]? with
        | none => simp [listSwap, hn]
        | some a =>
          have : listSwap (x :: xs) (n + 1) 0 = a :: xs.set n x := by
            simp [listSwap, hn]
          rw [this]
          exact cons_set_perm xs n x a hn
      | succ m =>
        cases hn : xs[n]? with
        | none => simp [listSwap, hn]
        | some a =>
          cases hm : xs[m]? with
          | none => simp [listSwap, hn, hm]
          | some b =>
            have : listSwap (x :: xs) (n + 1) (m + 1) = x :: listSwap xs n m := by
              simp [listSwap, hn, hm]
            rw [this]
            exact (ih n m).cons x

theorem fisherYates_perm (js : Nat → Nat) (i : Nat) (l : List Nat) :
    (fisherYates js i l).Perm l := by
  induction i generalizing l with
  | zero => exact List.Perm.refl l
  | succ n ih =>
    exact (ih (listSwap l (n + 1) (js (n + 1)))).trans
      (listSwap_perm l (n + 1) (js (n + 1)))

theorem generateNumberSequence_perm (js : Nat → Nat) :
    (generateNumberSequence js).Perm (List.range' 1 90) :=
  fisherYates_perm js 89 (List.range' 1 90)

/-! ## C1, C2, C5: the number-calling tick

`callNextNumberAndContinue` (supabase-game.ts lines 380-408) delegates the
draw-and-append step to the server-side RPC `call_next_number`, whose SQL
body is not part of the repository sources; the firebase host component
(`startNumberCalling`) likewise delegates the stored append to a service
function not present here.  The tick itself is therefore modelled from the
spec (§4.2, §4.4, §5). -/

/-- Modelled from the spec: `nextNumber(game)` returns the first element of
the pre-shuffled `session_numbers` not already in `calledNumbers`, or
`none` when exhausted (the RPC body implementing this draw is not in the
sources). -/
def nextNumber (g : GameData) : Option Nat :=
  g.session_numbers.find? (fun n => !(g.game_state.calledNumbers.contains n))

/-- Modelled from the spec: the atomic tick of the server-side RPC
`call_next_number` (body not in the sources).  Inside the single atomic
update it re-validates that the game is still active — aborting when a
pause has been recorded since the tick was scheduled — and then either
appends the next number or, when the pool is exhausted, transitions the
game to `finished` instead of drawing. -/
def callNextNumber (g : GameData) : GameData :=
  if g.game_state.isActive then
    match nextNumber g with
    | some n =>
      { g with game_state :=
        { g.game_state with
          calledNumbers := g.game_state.calledNumbers ++ [n]
          currentNumber := some n
          totalNumbersCalled := g.game_state.calledNumbers.length + 1 } }
    | none =>
      { g with
        status := .finished
        game_state := { g.game_state with isActive := false, gameOver := true } }
  else g

/-- Embeds the pause recording of `pauseGame`
(HostControlsProvider.tsx lines 200-244): the persisted update sets
`isActive := false` and `isCountdown := false`; the supabase service
variant additionally sets the status column to `paused`. -/
def pauseGame (g : GameData) : GameData :=
  { g with
    status := .paused
    game_state := { g.game_state with isActive := false, isCountdown := false } }

/-- The stored state after `k` ticks of the call loop. -/
def ticks (g : GameData) : Nat → GameData
  | 0 => g
  | k + 1 => callNextNumber (ticks g k)

theorem callNextNumber_session_numbers (g : GameData) :
    (callNextNumber g).session_numbers = g.session_numbers := by
  unfold callNextNumber
  by_cases h : g.game_state.isActive <;> cases hn : nextNumber g <;> simp [h, hn]

theorem nextNumber_some_mem {g : GameData} {n : Nat} (h : nextNumber g = some n) :
    n ∈ g.session_numbers ∧ n ∉ g.game_state.calledNumbers := by
  unfold nextNumber at h
  refine ⟨List.mem_of_find?_eq_some h, ?_⟩
  have := List.find?_some h
  simpa using this

theorem find?_first {p : Nat → Bool} {l : List Nat} {n : Nat}
    (h : l.find? p = some n) :
    p n = true ∧ ∃ l1 l2, l = l1 ++ n :: l2 ∧ ∀ m ∈ l1, p m = false := by
  induction l with
  | nil => simp at h
  | cons x xs ih =>
    by_cases hx : p x
    · rw [List.find?_cons_of_pos xs hx] at h
      cases h
      exact ⟨hx, [], xs, rfl, by simp⟩
    · rw [List.find?_cons_of_neg xs (by simpa using hx)] at h
      obtain ⟨hp, l1, l2, hl, hall⟩ := ih h
      refine ⟨hp, x :: l1, l2, by rw [hl]; rfl, ?_⟩
      intro m hm
      rcases List.mem_cons.mp hm with rfl | hm'
      · simpa using hx
      · exact hall m hm'

theorem callNextNumber_called_shape (g : GameData) :
    (callNextNumber g).game_state.calledNumbers = g.game_state.calledNumbers ∨
    ∃ n, n ∉ g.game_state.calledNumbers ∧ n ∈ g.session_numbers ∧
      (callNextNumber g).game_state.calledNumbers =
        g.game_state.calledNumbers ++ [n] := by
  unfold callNextNumber
  by_cases h : g.game_state.isActive
  · cases hn : nextNumber g with
    | none => simp [h, hn]
    | some n =>
      obtain ⟨hmem, hnot⟩ := nextNumber_some_mem hn
      right
      simp only [h, hn]
      exact ⟨n, hnot, hmem, by simp⟩
  · simp [h]

theorem ticks_invariant_aux (g : GameData)
    (h1 : (g.game_state.calledNumbers).Nodup)
    (h2 : g.game_state.calledNumbers ⊆ g.session_numbers) (k : Nat) :
    ((ticks g k).game_state.calledNumbers).Nodup ∧
    (ticks g k).game_state.calledNumbers ⊆ (ticks g k).session_numbers ∧
    (ticks g k).session_numbers = g.session_numbers := by
  induction k with
  | zero => exact ⟨h1, h2, rfl⟩
  | succ m ih =>
    obtain ⟨ih1, ih2, ih3⟩ := ih
    have hsess : (ticks g (m + 1)).session_numbers = g.session_numbers := by
      show (callNextNumber (ticks g m)).session_numbers = g.session_numbers
      rw [callNextNumber_session_numbers, ih3]
    rcases callNextNumber_called_shape (ticks g m) with heq | ⟨n, hnot, hmem, heq⟩
    · refine ⟨?_, ?_, hsess⟩
      · show ((callNextNumber (ticks g m)).game_state.calledNumbers).Nodup
        rw [heq]; exact ih1
      · show (callNextNumber (ticks g m)).game_state.calledNumbers ⊆ _
        rw [heq, hsess, ← ih3]
        exact fun x hx => ih2 hx
    · refine ⟨?_, ?_, hsess⟩
      · show ((callNextNumber (ticks g m)).game_state.calledNumbers).Nodup
        rw [heq]
        simp [List.nodup_append, ih1, hnot]
      · show (callNextNumber (ticks g m)).game_state.calledNumbers ⊆ _
        rw [heq, hsess, ← ih3]
        intro x hx
        rcases List.mem_append.mp hx with hx' | hx'
        · exact ih2 hx'
        · simp at hx'
          subst hx'
          exact hmem

/-! ## C3: the prize evaluation pass

`checkWinCondition` (supabase-game.ts lines 584-602) delegates the pattern
test to the server-side RPC `validate_win`, and the firebase variant
performs the pass in `callNumberWithPrizeValidation` of a service file not
present in the sources; the pass below is modelled from the spec (§4.3). -/

/-- Embeds the firebase `TambolaTicket` record (the fields the prize pass
reads): human-readable id, the 3×9 grid, booking state and player data. -/
structure FTicket where
  ticketId : String
  rows : List (List Nat)
  isBooked : Bool
  playerName : String
  playerPhone : String
deriving Repr, DecidableEq

/-- Embeds the winner entry `{name, ticketId, phone}` stored on a prize. -/
structure Winner where
  name : String
  ticketId : String
  phone : String
deriving Repr, DecidableEq

/-- One recorded win instant for a prize: a single winners list, a single
`winningNumber` and a single `wonAt` stamp. -/
structure WinEvent where
  winners : List Winner
  winningNumber : Nat
  wonAt : Nat
deriving Repr, DecidableEq

/-- The winner entry recorded for a ticket. -/
def mkWinner (t : FTicket) : Winner :=
  ⟨t.playerName, t.ticketId, t.playerPhone⟩

/-- The numbers present in one grid row (zeros mark the empty cells of the
3×9 layout). -/
def rowNumbers (row : List Nat) : List Nat :=
  row.filter (fun n => decide (n ≠ 0))

/-- Modelled from the spec: the `topLine` pattern of `validate_win` (RPC
body not in the sources) — all numbers of the top grid row are in
`calledNumbers`. -/
def satisfiesTopLine (t : FTicket) (called : List Nat) : Bool :=
  (rowNumbers (t.rows.getD 0 [])).all (fun n => called.contains n)

/-- Modelled from the spec: one evaluation pass for one not-yet-won prize
(performed inside `callNumberWithPrizeValidation` / `call_next_number`,
bodies not in the sources).  All booked tickets whose pattern holds on the
current `calledNumbers` are collected into a single win event; with no
satisfied ticket the prize stays unwon. -/
def evaluatePrize (sat : FTicket → List Nat → Bool) (tickets : List FTicket)
    (called : List Nat) (now : Nat) : Option WinEvent :=
  let ws := tickets.filter (fun t => t.isBooked && sat t called)
  if ws.isEmpty then none
  else some ⟨ws.map mkWinner, (called.getLast?).getD 0, now⟩

/-! ## C6: `resetGame` (GameHost.tsx, part_001 lines 889-939) -/

/-- Embeds the firebase `Prize` record (the fields reset touches). -/
structure FPrize where
  id : String
  name : String
  pattern : String
  won : Bool
  winners : List Winner
  winningNumber : Option Nat
  wonAt : Option Nat
deriving Repr, DecidableEq

/-- Embeds the firebase `GameData` sub-records that `resetGame` reads and
writes: the game state, the ticket map and the prize map. -/
structure FGame where
  gameState : GameState
  tickets : List FTicket
  prizes : List FPrize
deriving Repr, DecidableEq

/-- Modelled from the spec: firebase `resetPrize` (service body not in the
sources) returns one prize to unwon — `won = false`, empty winners, no
winning number, no win stamp. -/
def resetPrize (p : FPrize) : FPrize :=
  { p with won := false, winners := [], winningNumber := none, wonAt := none }

/-- Embeds `resetGame`: write the game state with activity flags, game-over
flag, `calledNumbers` and `currentNumber` cleared, then reset every prize;
the ticket records are not touched. -/
def resetGame (g : FGame) : FGame :=
  { g with
    gameState :=
      { g.gameState with
        isActive := false, isCountdown := false, gameOver := false,
        calledNumbers := [], currentNumber := none }
    prizes := g.prizes.map resetPrize }

/-- The game phase that host and viewer clients derive from the firebase
boolean flags (the status badge of GameHost.tsx and
`findActiveOrRecentGame`). -/
def derivedStatus (s : GameState) : GameStatus :=
  if s.gameOver then .finished
  else if s.isCountdown then .countdown
  else if s.isActive then .active
  else if s.calledNumbers.isEmpty then .setup
  else .paused

/-! ## C7: host-validity gating of `startCountdown` and `resumeGame`
(GameHost.tsx, part_001 lines 240-248, 639-677, 825-849;
HostControlsProvider.tsx lines 247-280) -/

/-- Embeds the host fields read by `isSubscriptionValid`: the `isActive`
flag and the subscription end instant (in epoch milliseconds, absent when
never set). -/
structure HostAccount where
  isActive : Bool
  subscriptionEndDate : Option Int
deriving Repr, DecidableEq

/-- Embeds `isSubscriptionValid` (GameHost.tsx lines 240-248): inactive
hosts and hosts with no or non-future end date are invalid; evaluated at
the current instant `now`. -/
def isSubscriptionValid (u : HostAccount) (now : Int) : Bool :=
  if !u.isActive then false
  else
    match u.subscriptionEndDate with
    | none => false
    | some d => decide (now < d) && u.isActive

/-- Embeds `startCountdown` (GameHost.tsx lines 639-677): returns without
any write when there is no current game or `isSubscriptionValid()` is
false at the moment of the call; otherwise persists the countdown state.
The result is the written game state, `none` when nothing was written. -/
def startCountdown (u : HostAccount) (now : Int) (duration : Nat)
    (game : Option GameState) : Option GameState :=
  match game with
  | none => none
  | some s =>
    if isSubscriptionValid u now then
      some { s with isCountdown := true, countdownTime := duration,
                    isActive := false }
    else none

/-- Embeds `resumeGame` (GameHost.tsx lines 825-849, and likewise
HostControlsProvider.tsx lines 247-280): returns without a write only when
there is no current game; otherwise persists the activating update.  The
host account and the current instant are not consulted. -/
def resumeGame (u : HostAccount) (now : Int) (game : Option GameState) :
    Option GameState :=
  match game with
  | none => none
  | some s => some { s with isActive := true, isCountdown := false }

end Tambola

namespace Tambola

/-! ## Claim theorems for C8, C9, C10 -/

/-- Claim C9: `markTicketNumber` is idempotent — for a number already in the
ticket's `marked_numbers` the stored list is unchanged and no write is
issued, so calling it twice with the same number yields the same stored
state as calling it once. -/
theorem markTicketNumber_idempotent (marked : List Nat) (number : Nat) :
    (number ∈ marked → markTicketNumber marked number = (marked, false)) ∧
    markTicketNumber (markTicketNumber marked number).1 number =
      ((markTicketNumber marked number).1, false) := by
  constructor
  · intro h
    simp [markTicketNumber, h]
  · by_cases h : number ∈ marked
    · simp [markTicketNumber, h]
    · simp [markTicketNumber, h]

/-- Witness for C9 at a concrete ticket state. -/
theorem markTicketNumber_idempotent_witness :
    markTicketNumber [4, 7] 7 = ([4, 7], false) :=
  (markTicketNumber_idempotent [4, 7] 7).1 (by decide)

/-- Claim C10: `updateGameState` merges — every `game_state` field not named
in the patch keeps its stored value, every other game column is unchanged,
and when the game does not exist the call fails with an error and writes
nothing. -/
theorem updateGameState_merge (g : GameData) (p : GameStatePatch) :
    (∃ g', updateGameState (some g) p = .ok g' ∧
      g'.name = g.name ∧ g'.max_tickets = g.max_tickets ∧
      g'.ticket_price = g.ticket_price ∧ g'.status = g.status ∧
      g'.session_numbers = g.session_numbers ∧
      (p.isActive = none → g'.game_state.isActive = g.game_state.isActive) ∧
      (p.isCountdown = none → g'.game_state.isCountdown = g.game_state.isCountdown) ∧
      (p.countdownTime = none → g'.game_state.countdownTime = g.game_state.countdownTime) ∧
      (p.gameOver = none → g'.game_state.gameOver = g.game_state.gameOver) ∧
      (p.calledNumbers = none → g'.game_state.calledNumbers = g.game_state.calledNumbers) ∧
      (p.currentNumber = none → g'.game_state.currentNumber = g.game_state.currentNumber) ∧
      (p.totalNumbersCalled = none →
        g'.game_state.totalNumbersCalled = g.game_state.totalNumbersCalled)) ∧
    updateGameState none p = .error .gameNotFound ∧
    applyGameStateUpdate none p = none := by
  refine ⟨⟨{ g with game_state := mergeGameState g.game_state p }, rfl, ?_⟩, rfl, rfl⟩
  refine ⟨rfl, rfl, rfl, rfl, rfl, ?_, ?_, ?_, ?_, ?_, ?_, ?_⟩ <;>
    intro h <;> simp [mergeGameState, h]

/-- Witness for C10: a patch supplying only `countdownTime` keeps
`calledNumbers` and `currentNumber` of a concrete game. -/
theorem updateGameState_merge_witness :
    ∃ g', updateGameState
        (some ⟨"g", 100, 0, .countdown,
          ⟨false, true, 10, false, [3, 5], some 5, 2⟩, []⟩)
        { GameStatePatch.empty with countdownTime := some 7 } = .ok g' ∧
      g'.game_state.calledNumbers = [3, 5] ∧
      g'.game_state.currentNumber = some 5 := by
  obtain ⟨⟨g', hok, -, -, -, -, -, -, -, -, -, hcalled, hcurrent, -⟩, -, -⟩ :=
    updateGameState_merge
      ⟨"g", 100, 0, .countdown, ⟨false, true, 10, false, [3, 5], some 5, 2⟩, []⟩
      { GameStatePatch.empty with countdownTime := some 7 }
  exact ⟨g', hok, hcalled rfl, hcurrent rfl⟩

/-- Claim C8: the retry loop of `safeTransactionUpdate` with the default
bound of 3 makes at most 3 attempts, returns right after the first
successful attempt with no further delay, waits `2 ^ attempt * 100`
milliseconds after each non-final failed attempt, and surfaces an error
after the 3rd failed attempt instead of retrying further. -/
theorem safeTransactionUpdate_retry_policy (succeeds : Nat → Bool) :
    (safeTransactionUpdate succeeds 3).lastAttempt ≤ 3 ∧
    (succeeds 1 = true →
      safeTransactionUpdate succeeds 3 = ⟨true, 1, []⟩) ∧
    (succeeds 1 = false → succeeds 2 = true →
      safeTransactionUpdate succeeds 3 = ⟨true, 2, [200]⟩) ∧
    (succeeds 1 = false → succeeds 2 = false → succeeds 3 = true →
      safeTransactionUpdate succeeds 3 = ⟨true, 3, [200, 400]⟩) ∧
    (succeeds 1 = false → succeeds 2 = false → succeeds 3 = false →
      safeTransactionUpdate succeeds 3 = ⟨false, 3, [200, 400]⟩) := by
  have h3 : ∀ b1 b2 b3, succeeds 1 = b1 → succeeds 2 = b2 → succeeds 3 = b3 →
      (safeTransactionUpdate succeeds 3).lastAttempt ≤ 3 := by
    intro b1 b2 b3 h1 h2 h3
    cases b1 <;> cases b2 <;> cases b3 <;>
      simp [safeTransactionUpdate, txAttempts, h1, h2, h3]
  refine ⟨h3 (succeeds 1) (succeeds 2) (succeeds 3) rfl rfl rfl, ?_, ?_, ?_, ?_⟩
  · intro h1; simp [safeTransactionUpdate, txAttempts, h1]
  · intro h1 h2; simp [safeTransactionUpdate, txAttempts, h1, h2]
  · intro h1 h2 h3; simp [safeTransactionUpdate, txAttempts, h1, h2, h3]
  · intro h1 h2 h3; simp [safeTransactionUpdate, txAttempts, h1, h2, h3]

/-- Witness for C8: with an oracle whose first success is attempt 2, the
call commits on attempt 2 after one 200 ms backoff. -/
theorem safeTransactionUpdate_retry_policy_witness :
    safeTransactionUpdate (fun k => decide (k = 2)) 3 = ⟨true, 2, [200]⟩ :=
  (safeTransactionUpdate_retry_policy (fun k => decide (k = 2))).2.2.1
    (by decide) (by decide)

/-! ## Claim theorem for C4 -/

theorem nodup_subset_length_le {l l2 : List Nat} (d : l.Nodup) (h : l ⊆ l2) :
    l.length ≤ l2.length := by
  have h1 : l.toFinset.card = l.length := List.toFinset_card_of_nodup d
  have h2 : l.toFinset ⊆ l2.toFinset := by
    intro a ha
    simp only [List.mem_toFinset] at ha ⊢
    exact h ha
  have h3 : l.toFinset.card ≤ l2.toFinset.card := Finset.card_le_card h2
  have h4 : l2.toFinset.card ≤ l2.length := l2.toFinset_card_le
  omega

/-- Claim C4: starting a game from setup generates and stores a session
sequence that is a full permutation of `1..90` (length 90, each value of
`[1,90]` exactly once), puts the game in the countdown phase with
`countdownTime = 10`, and clears `calledNumbers` — for every draw of the
shuffle's random indices. -/
theorem startGameWithCountdown_spec (js : Nat → Nat) (g : GameData) :
    ((startGameWithCountdown js g).session_numbers).Perm (List.range' 1 90) ∧
    ((startGameWithCountdown js g).session_numbers).length = 90 ∧
    (∀ v, 1 ≤ v → v ≤ 90 →
      ((startGameWithCountdown js g).session_numbers).count v = 1) ∧
    (startGameWithCountdown js g).status = .countdown ∧
    (startGameWithCountdown js g).game_state.isCountdown = true ∧
    (startGameWithCountdown js g).game_state.countdownTime = 10 ∧
    (startGameWithCountdown js g).game_state.calledNumbers = [] := by
  have hperm : ((startGameWithCountdown js g).session_numbers).Perm
      (List.range' 1 90) := by
    simp only [startGameWithCountdown]
    exact generateNumberSequence_perm js
  refine ⟨hperm, ?_, ?_, rfl, rfl, rfl, rfl⟩
  · rw [hperm.length_eq]
    simp
  · intro v h1 h2
    rw [hperm.count_eq v]
    refine List.count_eq_one_of_mem (List.nodup_range' 1 90) ?_
    rw [List.mem_range'_1]
    omega

/-- Witness for C4: with the degenerate random draw that always picks
index 0, the stored sequence contains the value 17 exactly once. -/
theorem startGameWithCountdown_spec_witness :
    ((startGameWithCountdown (fun _ => 0)
      ⟨"demo", 100, 0, .setup,
        ⟨false, false, 0, false, [], none, 0⟩, []⟩).session_numbers).count 17 = 1 :=
  (startGameWithCountdown_spec (fun _ => 0)
    ⟨"demo", 100, 0, .setup, ⟨false, false, 0, false, [], none, 0⟩, []⟩).2.2.1
    17 (by decide) (by decide)

/-! ## Claim theorems for C1, C2, C5 -/

/-- Claim C1: for every game started with an empty call history and a
session sequence that is a permutation of `1..90`, and for every sequence
of call-loop ticks, `calledNumbers` has no duplicates (each value occurs
at most once), its length never exceeds 90, and a tick never appends a
number that is already a member of `calledNumbers`. -/
theorem calledNumbers_no_duplicates (g : GameData)
    (hcalled : g.game_state.calledNumbers = [])
    (hsession : g.session_numbers.Perm (List.range' 1 90)) (k : Nat) :
    ((ticks g k).game_state.calledNumbers).Nodup ∧
    (∀ v, ((ticks g k).game_state.calledNumbers).count v ≤ 1) ∧
    ((ticks g k).game_state.calledNumbers).length ≤ 90 ∧
    ((ticks g (k + 1)).game_state.calledNumbers =
        (ticks g k).game_state.calledNumbers ∨
      ∃ n, n ∉ (ticks g k).game_state.calledNumbers ∧
        (ticks g (k + 1)).game_state.calledNumbers =
          (ticks g k).game_state.calledNumbers ++ [n]) := by
  have h1 : (g.game_state.calledNumbers).Nodup := by
    rw [hcalled]; exact List.nodup_nil
  have h2 : g.game_state.calledNumbers ⊆ g.session_numbers := by
    rw [hcalled]; exact List.nil_subset _
  obtain ⟨d, sub, sess⟩ := ticks_invariant_aux g h1 h2 k
  refine ⟨d, fun v => List.nodup_iff_count_le_one.mp d v, ?_, ?_⟩
  · have hlen : (ticks g k).session_numbers.length = 90 := by
      rw [sess, hsession.length_eq]; simp
    have := nodup_subset_length_le d sub
    omega
  · show ((callNextNumber (ticks g k)).game_state.calledNumbers = _ ∨ _)
    rcases callNextNumber_called_shape (ticks g k) with heq | ⟨n, hn1, _, heq⟩
    · exact Or.inl heq
    · exact Or.inr ⟨n, hn1, heq⟩

/-- Witness for C1: three ticks on a fresh game keep the call history
duplicate-free. -/
theorem calledNumbers_no_duplicates_witness :
    ((ticks ⟨"w", 100, 0, .active, ⟨true, false, 0, false, [], none, 0⟩,
        List.range' 1 90⟩ 3).game_state.calledNumbers).Nodup :=
  (calledNumbers_no_duplicates
    ⟨"w", 100, 0, .active, ⟨true, false, 0, false, [], none, 0⟩,
      List.range' 1 90⟩ rfl (List.Perm.refl _) 3).1

/-- Claim C2: when a pause and one in-flight tick race, whichever order the
two atomic updates commit in, the final `calledNumbers` length is the
pre-tick length N or N+1, the tick's atomic update re-validates `isActive`
and aborts the append when the pause committed first (no number is
appended after the pause is recorded), and in both orders the game ends up
inactive. -/
theorem pause_tick_atomic (g : GameData) :
    (callNextNumber (pauseGame g)).game_state.calledNumbers =
      g.game_state.calledNumbers ∧
    ((pauseGame (callNextNumber g)).game_state.calledNumbers.length =
        g.game_state.calledNumbers.length ∨
      (pauseGame (callNextNumber g)).game_state.calledNumbers.length =
        g.game_state.calledNumbers.length + 1) ∧
    (callNextNumber (pauseGame g)).game_state.isActive = false ∧
    (pauseGame (callNextNumber g)).game_state.isActive = false := by
  refine ⟨?_, ?_, ?_, ?_⟩
  · simp [callNextNumber, pauseGame]
  · rcases callNextNumber_called_shape g with heq | ⟨n, -, -, heq⟩
    · left; simp [pauseGame, heq]
    · right; simp [pauseGame, heq]
  · simp [callNextNumber, pauseGame]
  · simp [pauseGame]

/-- Claim C5: on an active game the tick draws exactly the first element of
the pre-shuffled session sequence not already called (every earlier
session element has already been called), and when no such element remains
the drawer yields `none` and the tick transitions the game to `finished`
without drawing. -/
theorem nextNumber_draw_spec (g : GameData)
    (hactive : g.game_state.isActive = true) :
    (∀ n, nextNumber g = some n →
      n ∉ g.game_state.calledNumbers ∧
      (∃ l1 l2, g.session_numbers = l1 ++ n :: l2 ∧
        ∀ m ∈ l1, m ∈ g.game_state.calledNumbers) ∧
      (callNextNumber g).game_state.calledNumbers =
        g.game_state.calledNumbers ++ [n]) ∧
    (nextNumber g = none →
      (∀ m ∈ g.session_numbers, m ∈ g.game_state.calledNumbers) ∧
      (callNextNumber g).status = .finished ∧
      (callNextNumber g).game_state.gameOver = true ∧
      (callNextNumber g).game_state.calledNumbers =
        g.game_state.calledNumbers) := by
  constructor
  · intro n h
    obtain ⟨hp, l1, l2, hl, hall⟩ := find?_first h
    refine ⟨by simpa using hp, ⟨l1, l2, hl, ?_⟩, ?_⟩
    · intro m hm
      have := hall m hm
      simpa using this
    · simp [callNextNumber, hactive, h]
  · intro hnone
    have h := hnone
    unfold nextNumber at h
    rw [List.find?_eq_none] at h
    refine ⟨?_, ?_, ?_, ?_⟩
    · intro m hm
      have := h m hm
      simpa using this
    · simp [callNextNumber, hactive, hnone]
    · simp [callNextNumber, hactive, hnone]
    · simp [callNextNumber, hactive, hnone]

/-- Witness for C5: with session sequence `[2, 1, 3]` and call history
`[2]`, the tick draws 1 (the first session element not yet called) and
appends it. -/
theorem nextNumber_draw_spec_witness :
    (callNextNumber ⟨"w", 100, 0, .active,
      ⟨true, false, 0, false, [2], none, 1⟩, [2, 1, 3]⟩).game_state.calledNumbers
      = [2] ++ [1] :=
  ((nextNumber_draw_spec ⟨"w", 100, 0, .active,
      ⟨true, false, 0, false, [2], none, 1⟩, [2, 1, 3]⟩ rfl).1 1 (by rfl)).2.2

/-! ## Claim theorem for C3 -/

/-- Claim C3: on one evaluation pass of a prize, every booked ticket whose
pattern is satisfied by the current `calledNumbers` is recorded in the one
win event the pass produces — the winners list of that single event is
exactly the satisfied booked tickets, so simultaneous winners share one
event rather than producing sequential ones. -/
theorem evaluatePrize_co_winners (sat : FTicket → List Nat → Bool)
    (tickets : List FTicket) (called : List Nat) (now : Nat) (t : FTicket)
    (ht : t ∈ tickets) (hb : t.isBooked = true) (hs : sat t called = true) :
    ∃ e, evaluatePrize sat tickets called now = some e ∧
      e.winners =
        (tickets.filter (fun u => u.isBooked && sat u called)).map mkWinner ∧
      mkWinner t ∈ e.winners := by
  have hmem : t ∈ tickets.filter (fun u => u.isBooked && sat u called) := by
    rw [List.mem_filter]
    exact ⟨ht, by simp [hb, hs]⟩
  have hne : (tickets.filter (fun u => u.isBooked && sat u called)).isEmpty
      = false := by
    rcases hl : tickets.filter (fun u => u.isBooked && sat u called) with - | ⟨x, xs⟩
    · rw [hl] at hmem; simp at hmem
    · rw [hl]; rfl
  refine ⟨⟨(tickets.filter (fun u => u.isBooked && sat u called)).map mkWinner,
    (called.getLast?).getD 0, now⟩, ?_, rfl, ?_⟩
  · simp only [evaluatePrize, hne]
    rfl
  · exact List.mem_map_of_mem mkWinner hmem

/-- Witness for C3: two booked tickets whose top line is exactly the called
set `[7, 14, 21, 28, 35]` are co-winners of the same single win event. -/
theorem evaluatePrize_co_winners_witness :
    ∃ e, evaluatePrize satisfiesTopLine
        [⟨"A001", [[7, 14, 21, 28, 35, 0, 0, 0, 0],
            [0, 0, 0, 0, 0, 0, 0, 0, 0], [0, 0, 0, 0, 0, 0, 0, 0, 0]],
          true, "Alice", "111"⟩,
         ⟨"A002", [[0, 7, 0, 14, 0, 21, 0, 28, 35],
            [0, 0, 0, 0, 0, 0, 0, 0, 0], [0, 0, 0, 0, 0, 0, 0, 0, 0]],
          true, "Bob", "222"⟩]
        [7, 14, 21, 28, 35] 0 = some e ∧
      ⟨"Alice", "A001", "111"⟩ ∈ e.winners ∧
      ⟨"Bob", "A002", "222"⟩ ∈ e.winners := by
  obtain ⟨e, he, hwin, hmem⟩ := evaluatePrize_co_winners satisfiesTopLine
    [⟨"A001", [[7, 14, 21, 28, 35, 0, 0, 0, 0],
        [0, 0, 0, 0, 0, 0, 0, 0, 0], [0, 0, 0, 0, 0, 0, 0, 0, 0]],
      true, "Alice", "111"⟩,
     ⟨"A002", [[0, 7, 0, 14, 0, 21, 0, 28, 35],
        [0, 0, 0, 0, 0, 0, 0, 0, 0], [0, 0, 0, 0, 0, 0, 0, 0, 0]],
      true, "Bob", "222"⟩]
    [7, 14, 21, 28, 35] 0
    ⟨"A001", [[7, 14, 21, 28, 35, 0, 0, 0, 0],
        [0, 0, 0, 0, 0, 0, 0, 0, 0], [0, 0, 0, 0, 0, 0, 0, 0, 0]],
      true, "Alice", "111"⟩
    (by simp) rfl (by decide)
  refine ⟨e, he, hmem, ?_⟩
  rw [hwin]
  decide

/-! ## Claim theorem for C6 -/

/-- Claim C6: resetting a finished game yields the setup phase with
`calledNumbers` empty and `currentNumber` cleared, returns every prize to
`won = false` with empty winners and no winning number, and leaves every
ticket record — booking state, grid, player name and phone — unchanged. -/
theorem resetGame_spec (g : FGame)
    (hfin : derivedStatus g.gameState = .finished) :
    derivedStatus (resetGame g).gameState = .setup ∧
    (resetGame g).gameState.calledNumbers = [] ∧
    (resetGame g).gameState.currentNumber = none ∧
    (∀ p ∈ (resetGame g).prizes,
      p.won = false ∧ p.winners = [] ∧ p.winningNumber = none) ∧
    (resetGame g).tickets = g.tickets := by
  refine ⟨?_, rfl, rfl, ?_, rfl⟩
  · simp [derivedStatus, resetGame]
  · intro p hp
    simp only [resetGame, List.mem_map] at hp
    obtain ⟨q, -, rfl⟩ := hp
    exact ⟨rfl, rfl, rfl⟩

/-- Witness for C6: resetting a concrete finished game with one won prize
and one booked ticket clears the prize and keeps the ticket booked. -/
theorem resetGame_spec_witness :
    derivedStatus (resetGame
      ⟨⟨false, false, 0, true, [7, 14], some 14, 2⟩,
        [⟨"A001", [[7, 14, 0, 0, 0, 0, 0, 0, 0]], true, "Alice", "111"⟩],
        [⟨"p1", "Top Line", "topLine", true, [⟨"Alice", "A001", "111"⟩],
          some 14, some 5⟩]⟩).gameState = .setup ∧
    (resetGame
      ⟨⟨false, false, 0, true, [7, 14], some 14, 2⟩,
        [⟨"A001", [[7, 14, 0, 0, 0, 0, 0, 0, 0]], true, "Alice", "111"⟩],
        [⟨"p1", "Top Line", "topLine", true, [⟨"Alice", "A001", "111"⟩],
          some 14, some 5⟩]⟩).tickets =
      [⟨"A001", [[7, 14, 0, 0, 0, 0, 0, 0, 0]], true, "Alice", "111"⟩] := by
  have h := resetGame_spec
    ⟨⟨false, false, 0, true, [7, 14], some 14, 2⟩,
      [⟨"A001", [[7, 14, 0, 0, 0, 0, 0, 0, 0]], true, "Alice", "111"⟩],
      [⟨"p1", "Top Line", "topLine", true, [⟨"Alice", "A001", "111"⟩],
        some 14, some 5⟩]⟩ (by decide)
  exact ⟨h.1, h.2.2.2.2⟩

/-! ## Claim theorems for C7 (corrected) -/

/-- Counterexample to C7 as stated: a host with `isActive = false` is
invalid, yet invoking resume on a current game performs the activating
game-state mutation instead of being refused. -/
theorem host_gating_counterexample :
    isSubscriptionValid ⟨false, some 100⟩ 0 = false ∧
    resumeGame ⟨false, some 100⟩ 0
        (some ⟨false, false, 0, false, [1], none, 1⟩) =
      some ⟨true, false, 0, false, [1], none, 1⟩ := by
  exact ⟨rfl, rfl⟩

/-- Claim C7 as amended: an invocation of start by a host whose `isActive`
flag is false or whose subscription end is not after the current time is
refused with no game-state mutation, the validity being evaluated at the
moment of that action; resume, however, performs no host-validity check
and applies the activating mutation regardless of the host's state. -/
theorem host_gating_amended (u : HostAccount) (now : Int) (d : Nat)
    (s : GameState) (hinvalid : isSubscriptionValid u now = false) :
    startCountdown u now d (some s) = none ∧
    resumeGame u now (some s) =
      some { s with isActive := true, isCountdown := false } := by
  constructor
  · simp [startCountdown, hinvalid]
  · rfl

/-- Witness for the amended C7 at a concrete expired host. -/
theorem host_gating_amended_witness :
    startCountdown ⟨true, some 100⟩ 200 10
        (some ⟨false, false, 0, false, [], none, 0⟩) = none :=
  (host_gating_amended ⟨true, some 100⟩ 200 10
    ⟨false, false, 0, false, [], none, 0⟩ (by decide)).1

end Tambola
